import Mathlib

/-!
Shallow embedding of the UncertaintyCalc repository (files `suncal/risk.py` and
`psluncert/curvefit.py`) together with theorems settling the specification
claims C1 - C10.

Machine reals (Python floats) are embedded as exact rationals, or as real
numbers where the source computes transcendental functions (sqrt, exp, log).
Probability distributions (frozen `scipy.stats` objects) are embedded by the
interface the source actually uses: a median and a cumulative distribution
function.  Randomness (`np.random`) is embedded by passing the drawn sample
streams as explicit arguments.
-/

namespace UncertaintyCalc

/-! ## Distributions

A frozen continuous distribution, as used by `Risk.test_risk`: the code only
calls `.median()` and `.cdf(x)` on it. -/

structure Dist where
  median : ℚ
  cdf : ℚ → ℚ

/-! ## Risk state (`suncal/risk.py`, class `Risk`)

`Risk.__init__` stores `speclimits` (a pair `(LL, UL)` of absolute
specification limits), `guardband` (a pair `(GBL, GBU)` of absolute offsets)
and the test distribution `testdist`.  The fields not consulted by any claim
(name, description, process distribution, cached output object) are omitted. -/

structure Risk where
  speclimits : ℚ × ℚ
  guardband : ℚ × ℚ
  testdist : Dist

/-- `Risk.set_gbf(gbf)`:
`rng = (speclimits[1] - speclimits[0])/2; gb = rng * (1 - gbf);
self.guardband = gb, gb`. -/
def Risk.set_gbf (r : Risk) (gbf : ℚ) : Risk :=
  let rng := (r.speclimits.2 - r.speclimits.1) / 2
  let gb := rng * (1 - gbf)
  { r with guardband := (gb, gb) }

/-- `Risk.get_gbf()`:
`gb = guardband[1] - (guardband[1] - guardband[0])/2;
rng = (speclimits[1] - speclimits[0])/2; gbf = 1 - gb/rng`. -/
def Risk.get_gbf (r : Risk) : ℚ :=
  let gb := r.guardband.2 - (r.guardband.2 - r.guardband.1) / 2
  let rng := (r.speclimits.2 - r.speclimits.1) / 2
  1 - gb / rng

/-- `Risk.set_guardband(GBL, GBU)`: `self.guardband = GBL, GBU`. -/
def Risk.set_guardband (r : Risk) (GBL GBU : ℚ) : Risk :=
  { r with guardband := (GBL, GBU) }

/-- `Risk.test_risk()` from `suncal/risk.py` lines 837-859, translated
line by line:

```
med = self.testdist.median()
LL, UL = self.speclimits
LL, UL = min(LL, UL), max(LL, UL)
accept = (med >= LL + self.guardband[0] and med <= UL - self.guardband[0])
if med >= LL + self.guardband[0] and med <= UL - self.guardband[0]:
    PFx = self.testdist.cdf(LL) + (1 - self.testdist.cdf(UL))
else:
    PFx = abs(self.testdist.cdf(LL) - self.testdist.cdf(UL))
return PFx, accept
```

Note that the source compares against `self.guardband[0]` (the lower offset
GBL) on BOTH sides of the interval. -/
def Risk.test_risk (r : Risk) : ℚ × Bool :=
  let med := r.testdist.median
  let LL := min r.speclimits.1 r.speclimits.2
  let UL := max r.speclimits.1 r.speclimits.2
  let accept : Bool := decide (LL + r.guardband.1 ≤ med) && decide (med ≤ UL - r.guardband.1)
  let PFx :=
    if LL + r.guardband.1 ≤ med ∧ med ≤ UL - r.guardband.1 then
      r.testdist.cdf LL + (1 - r.testdist.cdf UL)
    else
      |r.testdist.cdf LL - r.testdist.cdf UL|
  (PFx, accept)

/-! ## `PFAR_MC` (`suncal/risk.py` lines 523-566)

The Monte Carlo routine draws `N` process samples and `N` test samples (the
test distribution re-centered at each process sample) and then counts:

```
FA = np.count_nonzero(((proc_samples > UL) & (test_samples < UL-GBU)) |
                      ((proc_samples < LL) & (test_samples > LL+GBL)))/N
FR = np.count_nonzero(((proc_samples < UL) & (test_samples > UL-GBU)) |
                      ((proc_samples > LL) & (test_samples < LL+GBL)))/N
```

The random drawing is embedded by passing the two sample arrays explicitly
(each of length `N`); the counting predicates and the division by `N` are
translated exactly. -/

/-- The per-pair false-accept condition of `PFAR_MC`. -/
def PFAR_MC_FAcond (LL UL GBL GBU tp ts : ℚ) : Bool :=
  (decide (UL < tp) && decide (ts < UL - GBU)) ||
  (decide (tp < LL) && decide (LL + GBL < ts))

/-- The per-pair false-reject condition of `PFAR_MC`. -/
def PFAR_MC_FRcond (LL UL GBL GBU tp ts : ℚ) : Bool :=
  (decide (tp < UL) && decide (UL - GBU < ts)) ||
  (decide (LL < tp) && decide (ts < LL + GBL))

/-- `PFAR_MC(dist_proc, dist_test, LL, UL, GBL, GBU, N)` with the two drawn
sample arrays passed explicitly; returns `(FA, FR)`, each the count of pairs
satisfying the corresponding condition divided by `N`. -/
def PFAR_MC (proc_samples test_samples : List ℚ) (LL UL GBL GBU : ℚ) (N : ℕ) : ℚ × ℚ :=
  let pairs := proc_samples.zip test_samples
  let FA := ((pairs.filter (fun p => PFAR_MC_FAcond LL UL GBL GBU p.1 p.2)).length : ℚ) / N
  let FR := ((pairs.filter (fun p => PFAR_MC_FRcond LL UL GBL GBU p.1 p.2)).length : ℚ) / N
  (FA, FR)

/-- The false-reject condition as the claim (and the module's own `PFR`
integral, which integrates the process density over `[LL, UL]` only) states
it: the process sample lies inside both specification limits and the test
sample lies on the reject side of a guard-banded limit.  This definition
follows the SPEC's words, for comparison with `PFAR_MC_FRcond` which is
translated from the source. -/
def spec_FRcond (LL UL GBL GBU tp ts : ℚ) : Bool :=
  (decide (LL < tp) && decide (tp < UL)) &&
  (decide (UL - GBU < ts) || decide (ts < LL + GBL))

/-! ## `guardband_norm` (`suncal/risk.py` lines 92-148)

The four closed-form branches are embedded exactly.  The `'pfa'` and `'4:1'`
branches invoke the iterative numerical root finder `scipy.optimize.fsolve`
over the double-quadrature `PFA_norm` and have no closed form, so they are
outside this embedding; any other method string raises `ValueError`. -/

inductive GBMethod
  | dobbert
  | rss
  | test
  | rp10

open Classical in
/-- `guardband_norm(method, TUR)`:

```
if method == 'dobbert':
    M = 1.04 - np.exp(0.38 * np.log(TUR) - 0.54)
    GB = 1 - M / TUR
elif method == 'rss':
    GB = np.sqrt(1-1/TUR**2)
elif method == 'test':
    GB = 1 - 1/TUR if TUR <= 4 else 1
elif method == 'rp10':
    GB = 1.25 - 1/TUR if TUR <= 4 else 1
```
-/
noncomputable def guardband_norm : GBMethod → ℝ → ℝ
  | .dobbert, TUR => 1 - (1.04 - Real.exp (0.38 * Real.log TUR - 0.54)) / TUR
  | .rss, TUR => Real.sqrt (1 - 1/TUR^2)
  | .test, TUR => if TUR ≤ 4 then 1 - 1/TUR else 1
  | .rp10, TUR => if TUR ≤ 4 then 1.25 - 1/TUR else 1

/-! ## Configuration loading (`Risk.from_configfile`, `CurveFit.from_configfile`)

Both loaders have the identical structure:

```
try:
    try:
        yml = fname.read()            # fname is file object
    except AttributeError:
        with open(fname, 'r') as fobj:  # fname is string
            yml = fobj.read()
except UnicodeDecodeError:
    return None
try:
    config = yaml.safe_load(yml)
except yaml.scanner.ScannerError:
    return None
u = cls.from_config(config[0])
return u
```

The embedding makes the effects explicit: `read` is the outcome of obtaining
the text (the `AttributeError` fallback merely selects file object vs. path;
both end in either text or a `UnicodeDecodeError`), `safe_load` is the
third-party YAML parser, and `fromDoc` covers `config[0]` together with
`cls.from_config` (which may themselves raise on well-parsed but ill-shaped
documents).  The result distinguishes returning `None` (`.ok none`),
returning an instance (`.ok (some u)`), and an uncaught exception
(`.error e`). -/

inductive YamlErr
  | scannerError
  | parserError
  | otherError
deriving DecidableEq

inductive LoadErr
  | yaml (e : YamlErr)
  | fromConfig
deriving DecidableEq

/-- `Risk.from_configfile` (`suncal/risk.py` lines 938-964). -/
def Risk.from_configfile {Cfg β : Type} (read : Except Unit String)
    (safe_load : String → Except YamlErr Cfg) (fromDoc : Cfg → Except Unit β) :
    Except LoadErr (Option β) :=
  match read with
  | .error _ => .ok none
  | .ok yml =>
    match safe_load yml with
    | .error YamlErr.scannerError => .ok none
    | .error e => .error (.yaml e)
    | .ok config =>
      match fromDoc config with
      | .ok u => .ok (some u)
      | .error _ => .error .fromConfig

/-- `CurveFit.from_configfile` (`psluncert/curvefit.py` lines 689-715);
textually the same loader as `Risk.from_configfile`. -/
def CurveFit.from_configfile {Cfg β : Type} (read : Except Unit String)
    (safe_load : String → Except YamlErr Cfg) (fromDoc : Cfg → Except Unit β) :
    Except LoadErr (Option β) :=
  match read with
  | .error _ => .ok none
  | .ok yml =>
    match safe_load yml with
    | .error YamlErr.scannerError => .ok none
    | .error e => .error (.yaml e)
    | .ok config =>
      match fromDoc config with
      | .ok u => .ok (some u)
      | .error _ => .error .fromConfig

/-- Modelled from the spec: the structured-document serialization library
(`yaml`, §6) is not part of the analyzed sources.  PyYAML's `safe_load`
raises distinct error classes: `yaml.scanner.ScannerError` for tokenization
failures and `yaml.parser.ParserError` for grammatical failures — e.g. the
document `"["` (an unclosed flow sequence) tokenizes fine but fails to
parse, raising `ParserError`.  This minimal model maps that document to a
parser error and parses everything else successfully. -/
def pyyaml_model : String → Except YamlErr Unit :=
  fun s => if s = "[" then .error .parserError else .ok ()

/-! ## `linefit` (`psluncert/curvefit.py` lines 1228-1300)

```
if all(sig) > 0:
    wt = 1./sig**2
    ss = sum(wt)
    sx = sum(x*wt)
    sy = sum(y*wt)
    sxoss = sx/ss
    t = (x-sxoss)/sig
    st2 = sum(t*t)
    b = sum(t*y/sig)/st2
else:
    sx = sum(x)
    sy = sum(y)
    ss = len(x)
    sxoss = sx/ss
    t = (x-sxoss)
    st2 = sum(t*t)
    b = sum(t*y)/st2
a = (sy-sx*b)/ss
siga = np.sqrt((1+sx*sx/(ss*st2))/ss)
sigb = np.sqrt(1/st2)
resid = sum((y-a-b*x)**2)
syx = np.sqrt(resid/(len(x)-2))
cov = -sxoss * sigb**2
if not all(sig) > 0:
    siga = siga * syx
    sigb = sigb * syx
    cov = cov * syx*syx
elif not absolute_sigma:
    chi2 = sum(((y-a-b*x)/sig)**2)/(len(x)-2)
    siga, sigb, cov = np.sqrt(siga**2*chi2), np.sqrt(sigb**2*chi2), cov*chi2
return np.array([b, a]), np.array([[sigb**2, cov], [cov, siga**2]])
```

Python's `all(sig) > 0` is `all(sig)` compared with `0` as a boolean, i.e.
it is true exactly when every element of `sig` is nonzero (truthy);
`allNonzero` embeds that condition.  The scalar broadcast
(`len(sig)==1 → np.full`) is outside the embedding: `sig` is taken as the
already-broadcast array.  The function only ever returns the SQUARES of
`siga`/`sigb` (in the covariance matrix), so the embedding carries `siga2`
and `sigb2` directly; `sqrt` followed by squaring is the identity on the
nonnegative quantities involved, keeping everything in exact rationals. -/

def allNonzero (sig : List ℚ) : Bool := sig.all (fun s => decide (s ≠ 0))

/-- The quantities computed inside the weighted/unweighted branch of
`linefit`. -/
structure LinefitCore where
  ss : ℚ
  sx : ℚ
  sy : ℚ
  sxoss : ℚ
  st2 : ℚ
  b : ℚ

/-- The weighted branch of `linefit` (entered when every `sig` element is
nonzero). -/
def linefit_weighted_core (x y sig : List ℚ) : LinefitCore :=
  let wt := sig.map (fun s => 1 / s^2)
  let ss := wt.sum
  let sx := (List.zipWith (· * ·) x wt).sum
  let sy := (List.zipWith (· * ·) y wt).sum
  let sxoss := sx / ss
  let t := List.zipWith (fun xi si => (xi - sxoss) / si) x sig
  let st2 := (t.map (fun ti => ti * ti)).sum
  let b := (List.zipWith (fun ti p => ti * p.1 / p.2) t (y.zip sig)).sum / st2
  ⟨ss, sx, sy, sxoss, st2, b⟩

/-- The unweighted branch of `linefit` (entered when some `sig` element is
zero).  It does not reference `sig` at all. -/
def linefit_unweighted_core (x y : List ℚ) : LinefitCore :=
  let sx := x.sum
  let sy := y.sum
  let ss : ℚ := (x.length : ℚ)
  let sxoss := sx / ss
  let t := x.map (fun xi => xi - sxoss)
  let st2 := (t.map (fun ti => ti * ti)).sum
  let b := (List.zipWith (fun ti yi => ti * yi) t y).sum / st2
  ⟨ss, sx, sy, sxoss, st2, b⟩

/-- The returned fit: coefficients `[b, a]` (slope, intercept) and the
covariance matrix entries `[[sigb^2, cov], [cov, siga^2]]`. -/
structure LinefitResult where
  b : ℚ
  a : ℚ
  sigb2 : ℚ
  siga2 : ℚ
  cov : ℚ

/-- `linefit(x, y, sig, absolute_sigma)`, assembled from the branch cores and
the common tail exactly as in the source. -/
def linefit (x y sig : List ℚ) (absolute_sigma : Bool) : LinefitResult :=
  let core := if allNonzero sig then linefit_weighted_core x y sig else linefit_unweighted_core x y
  let n : ℚ := (x.length : ℚ)
  let a := (core.sy - core.sx * core.b) / core.ss
  let siga2 := (1 + core.sx * core.sx / (core.ss * core.st2)) / core.ss
  let sigb2 := 1 / core.st2
  let resid := (List.zipWith (fun xi yi => (yi - a - core.b * xi)^2) x y).sum
  let syx2 := resid / (n - 2)
  let cov := -core.sxoss * sigb2
  if ¬ allNonzero sig then
    ⟨core.b, a, sigb2 * syx2, siga2 * syx2, cov * syx2⟩
  else if ¬ absolute_sigma then
    let chi2 := (List.zipWith (fun p si => ((p.1 - a - core.b * p.2) / si)^2) (y.zip x) sig).sum / (n - 2)
    ⟨core.b, a, sigb2 * chi2, siga2 * chi2, cov * chi2⟩
  else
    ⟨core.b, a, sigb2, siga2, cov⟩

/-! Elementary list-arithmetic lemmas used to evaluate the weighted sums. -/

lemma zipWith_replicate_right (f : ℚ → ℚ → ℚ) (l : List ℚ) (c : ℚ) :
    List.zipWith f l (List.replicate l.length c) = l.map (fun a => f a c) := by
  induction l with
  | nil => rfl
  | cons h t ih => simp [List.replicate_succ, ih]

lemma zip_replicate_right (l : List ℚ) (c : ℚ) :
    l.zip (List.replicate l.length c) = l.map (fun a => (a, c)) := by
  induction l with
  | nil => rfl
  | cons h t ih => simp [List.replicate_succ, ih]

lemma sum_map_div (l : List ℚ) (f : ℚ → ℚ) (k : ℚ) :
    (l.map (fun a => f a / k)).sum = (l.map f).sum / k := by
  induction l with
  | nil => simp
  | cons h t ih => simp [ih, add_div]

lemma sum_zipWith_div (f : ℚ → ℚ → ℚ) (l₁ l₂ : List ℚ) (k : ℚ) :
    (List.zipWith (fun a b => f a b / k) l₁ l₂).sum = (List.zipWith f l₁ l₂).sum / k := by
  induction l₁ generalizing l₂ with
  | nil => simp
  | cons h t ih =>
    cases l₂ with
    | nil => simp
    | cons h₂ t₂ => simp [ih, add_div]

lemma sum_replicate_q (n : ℕ) (r : ℚ) : (List.replicate n r).sum = (n : ℚ) * r := by
  induction n with
  | zero => simp
  | succ m ih => simp [List.replicate_succ, ih, add_mul]; ring

lemma div_div_same_cancel (A B k : ℚ) (hk : k ≠ 0) : (A / k) / (B / k) = A / B := by
  rcases eq_or_ne B 0 with hB | hB
  · simp [hB]
  · field_simp

/-- With a uniform nonzero uncertainty `c` the weighted branch computes the
same centered quantities as the unweighted branch, except that `ss`, `sx`,
`sy` and `st2` are scaled by `1/c^2`; `sxoss` and the slope `b` are
identical. -/
lemma weighted_core_uniform (x y : List ℚ) (c : ℚ) (hc : c ≠ 0) (hy : y.length = x.length) :
    linefit_weighted_core x y (List.replicate x.length c) =
      ⟨(linefit_unweighted_core x y).ss / c^2,
       (linefit_unweighted_core x y).sx / c^2,
       (linefit_unweighted_core x y).sy / c^2,
       (linefit_unweighted_core x y).sxoss,
       (linefit_unweighted_core x y).st2 / c^2,
       (linefit_unweighted_core x y).b⟩ := by
  have hc2 : c^2 ≠ 0 := pow_ne_zero 2 hc
  simp only [linefit_weighted_core, linefit_unweighted_core, LinefitCore.mk.injEq]
  rw [List.map_replicate]
  rw [zipWith_replicate_right (· * ·) x (1 / c^2)]
  rw [← hy, zipWith_replicate_right (· * ·) y (1 / c^2), hy]
  simp only [mul_one_div]
  rw [sum_replicate_q, mul_one_div]
  rw [show (x.map (fun a => a / c^2)).sum = x.sum / c^2 by
        have := sum_map_div x id (c^2); simpa using this]
  rw [show (y.map (fun a => a / c^2)).sum = y.sum / c^2 by
        have := sum_map_div y id (c^2); simpa using this]
  rw [div_div_same_cancel _ _ _ hc2]
  generalize x.sum / ((x.length : ℚ)) = A
  refine ⟨rfl, rfl, rfl, rfl, ?_, ?_⟩
  · rw [zipWith_replicate_right (fun xi si => (xi - A) / si) x c]
    rw [List.map_map, List.map_map]
    simp only [Function.comp_def, div_mul_div_comm]
    rw [sum_map_div x (fun xi => (xi - A) * (xi - A)) (c * c)]
    rw [← pow_two]
  · rw [zipWith_replicate_right (fun xi si => (xi - A) / si) x c]
    rw [← hy, zip_replicate_right y c]
    rw [List.zipWith_map (fun ti p => ti * p.1 / p.2) (fun xi => (xi - A) / c) (fun yi => (yi, c)) x y]
    simp only [div_mul_eq_mul_div, div_div]
    rw [sum_zipWith_div (fun xi yi => (xi - A) * yi) x y (c * c)]
    rw [List.map_map, List.map_map]
    simp only [Function.comp_def, div_mul_div_comm]
    rw [sum_map_div x (fun xi => (xi - A) * (xi - A)) (c * c)]
    rw [div_div_same_cancel _ _ _ (mul_ne_zero hc hc)]
    rw [List.zipWith_map_left x y (fun xi => xi - A) (fun a b => a * b)]

/-! ## `CurveFitParam.stdunc` in `'pred'` mode (`psluncert/curvefit.py` lines 764-785)

```
elif self.mode == 'pred':
    if 'lsq' in self.outputs:
        return self.outputs['lsq'].u_pred(self.pidx)
    elif 'mc' in self.outputs:
        return self.outputs['mc'].u_pred(self.pidx)
    elif 'gum' in self.outputs:
        return self.outputs['gum'].u_pred(self.pidx)
    self.calc_LSQ()
    return self.outputs['lsq'].u_predy(self.pidx)
```

The cached records live in the `self.outputs` dictionary; the embedding keeps
the three keys `stdunc` consults.  Attribute access on a record is modelled by
name so that the distinction between the existing accessor `u_pred` and the
nonexistent `u_predy` (an `AttributeError` at runtime) is visible. -/

/-- Modelled from the spec: the Fit Output Record produced by the
output-module factories (`out_uncert.create_output` /
`out_curvefit.create_output_curvefit`, sibling modules not part of the
analyzed sources).  Per the spec it carries per-coefficient means and
uncertainties, degrees of freedom, and the y-value (`y`), confidence-band
(`u_conf`) and prediction-band (`u_pred`) functions — exactly the keys this
file passes to the factories (`mean`, `uncert`, `degf`, `y`, `u_conf`,
`u_pred`, ...).  No `u_predy` attribute exists. -/
structure FitOutputRecord where
  mean : List ℚ
  uncert : List ℚ
  degf : ℤ
  y : ℚ → ℚ
  u_conf : ℚ → ℚ
  u_pred : ℚ → ℚ

/-- The Python exception arising from an attribute lookup miss. -/
inductive PyCallErr
  | attributeError
deriving DecidableEq

/-- Modelled from the spec: Python attribute lookup on a Fit Output Record,
restricted to the function-valued attributes; an unknown name yields no
attribute (an `AttributeError` when called). -/
def getFnAttr (r : FitOutputRecord) (name : String) : Option (ℚ → ℚ) :=
  if name = "y" then some r.y
  else if name = "u_conf" then some r.u_conf
  else if name = "u_pred" then some r.u_pred
  else none

/-- Call the named function attribute of a record, raising `AttributeError`
when it does not exist. -/
def callFnAttr (r : FitOutputRecord) (name : String) (arg : ℚ) : Except PyCallErr ℚ :=
  match getFnAttr r name with
  | some f => .ok (f arg)
  | none => .error .attributeError

/-- The `self.outputs` cache of a `CurveFitParam`, restricted to the keys
`stdunc` consults, in its priority order. -/
structure ParamOutputs where
  lsq : Option FitOutputRecord
  mc : Option FitOutputRecord
  gum : Option FitOutputRecord

/-- `CurveFitParam.stdunc` in `'pred'` mode.  `calcLSQRecord` is the record
that `self.calc_LSQ()` computes and stores under `'lsq'` on the lazy path
(the laziness is embedded by passing that record explicitly).  Note the
lazy fallback accesses `u_predy`, while every cached branch accesses
`u_pred`. -/
def CurveFitParam.stdunc_pred (outputs : ParamOutputs) (calcLSQRecord : FitOutputRecord)
    (pidx : ℚ) : Except PyCallErr ℚ :=
  match outputs.lsq with
  | some r => callFnAttr r "u_pred" pidx
  | none =>
    match outputs.mc with
    | some r => callFnAttr r "u_pred" pidx
    | none =>
      match outputs.gum with
      | some r => callFnAttr r "u_pred" pidx
      | none => callFnAttr calcLSQRecord "u_predy" pidx

/-! ## `CurveFit.calc_LSQ` / `calc_MC` / `calc_GUM` record shapes
(`psluncert/curvefit.py` lines 270-319, 336-402, 566-620)

Each `calc_*` method obtains a coefficient vector, then computes
`degf = len(self.arr.x) - len(coeff)` and stores the record with
`'pnames': self.pnames` (and `self.numparams = len(self.pnames)` from
`set_fitfunc`).  The numeric fitters themselves (`scipy.optimize.curve_fit`
via `genfit`, `uarray._GUM`) are iterative floating-point solvers and enter
the embedding as function parameters; their contract (spec §6) is that they
return one coefficient per model parameter, which appears as a hypothesis of
the claim theorem.  The record fields carried here are the ones the claims
consult. -/

/-- The `CurveFit` state fields the claims consult: the parameter-name list
and the data arrays. -/
structure CurveFitState where
  pnames : List String
  x : List ℚ
  y : List ℚ

/-- `self.numparams = len(self.pnames)` (set in `set_fitfunc`). -/
def CurveFit.numparams (st : CurveFitState) : ℕ := st.pnames.length

/-- The output-record fields consulted by claim C8. -/
structure CurveFitOutputRec where
  coeffs : List ℚ
  degf : ℤ
  pnames : List String

/-- `calc_LSQ`: `coeff, cov = self.fitfunc(...); degf = len(x) - len(coeff)`. -/
def CurveFit.calc_LSQ (st : CurveFitState) (fitfunc : List ℚ → List ℚ → List ℚ) :
    CurveFitOutputRec :=
  let coeff := fitfunc st.x st.y
  { coeffs := coeff, degf := (st.x.length : ℤ) - coeff.length, pnames := st.pnames }

/-- `calc_GUM`: `coeff, cov, grad = uarray._GUM(...); degf = len(x) - len(coeff)`. -/
def CurveFit.calc_GUM (st : CurveFitState) (gum_coeff : List ℚ) : CurveFitOutputRec :=
  { coeffs := gum_coeff, degf := (st.x.length : ℤ) - gum_coeff.length, pnames := st.pnames }

/-- `samplecoeffs.mean(axis=0)`: the column-wise mean of a `(samples, nump)`
matrix.  The column count is fixed by the `np.zeros((samples,
self.numparams))` allocation (row assignment with a different length raises
`ValueError`), so the result always has `nump` entries. -/
def colMeans (nump : ℕ) (rows : List (List ℚ)) : List ℚ :=
  (List.range nump).map (fun j => ((rows.map (fun r => r.getD j 0)).sum) / rows.length)

/-- `calc_MC`: fit each Monte Carlo sample set, average the coefficient
rows, `degf = len(x) - len(coeff)`.  `fitsample i` is the coefficient vector
fitted to the `i`-th sampled data set. -/
def CurveFit.calc_MC (st : CurveFitState) (samples : ℕ) (fitsample : ℕ → List ℚ) :
    CurveFitOutputRec :=
  let samplecoeffs := (List.range samples).map fitsample
  let coeff := colMeans (CurveFit.numparams st) samplecoeffs
  { coeffs := coeff, degf := (st.x.length : ℤ) - coeff.length, pnames := st.pnames }

/-! ## `CurveFit.calc_MCMC` (`psluncert/curvefit.py` lines 404-546)

The Metropolis-in-Gibbs loop.  The embedding covers the loop itself and the
burn-in discard:

```
accepts = np.zeros(len(p))
self.mcmccoeffs = np.zeros((samples, self.numparams))
self.sig2trace = np.zeros(samples)
for i in range(samples):
    for pidx in range(len(p)):
        pnew = p.copy()
        pnew[pidx] = pnew[pidx] + np.random.normal(scale=up[pidx])
        problog = -1/(2*sig2) * sum((self.arr.y - Y)**2)
        problognew = -1/(2*sig2) * sum((self.arr.y - Ynew)**2)
        r = np.exp(problognew-problog) * priors[pidx](pnew[pidx]) / priors[pidx](p[pidx])
        if r >= np.random.uniform():
            p = pnew
            accepts[pidx] += 1
    if varysigma:
        sig2new = sig2 + np.random.normal(scale=sig2sig)
        if (sig2new < sig2lim[1] and sig2new > sig2lim[0]):
            ...
            if np.exp(problognew - problog) >= np.random.uniform():
                sig2 = sig2new
    self.mcmccoeffs[i, :] = p
    self.sig2trace[i] = sig2
burnin = int(burnin * samples)
self.mcmccoeffs = self.mcmccoeffs[burnin:, :]
acceptance = accepts/samples
coeff = self.mcmccoeffs.mean(axis=0)
degf = len(self.arr.x) - len(coeff)
```

The pre-loop setup (initial fit `p`, proposal widths `up`, the
residual-derived `sig2`, `sig2sig`, `sig2lim`, `varysigma`) enters as
parameters; the pseudo-random draws enter as explicit streams (a
standard-normal stream `xi` scaled by `up[pidx]`, uniform streams `unif`,
and the sigma-chain streams `xisig`/`unifsig`), so every Metropolis ratio
and comparison is embedded exactly. -/

structure MCMCParams where
  x : List ℝ
  y : List ℝ
  func : ℝ → List ℝ → ℝ
  pnames : List String
  p0 : List ℝ
  up : List ℝ
  priors : ℕ → ℝ → ℝ
  sig2init : ℝ
  varysigma : Bool
  sig2sig : ℝ
  sig2lim : ℝ × ℝ
  xi : ℕ → ℕ → ℝ
  unif : ℕ → ℕ → ℝ
  xisig : ℕ → ℝ
  unifsig : ℕ → ℝ

/-- `sum((self.arr.y - self.func(self.arr.x, *p))**2)`. -/
noncomputable def mcmc_sumsq (ps : MCMCParams) (p : List ℝ) : ℝ :=
  (List.zipWith (fun xi yi => (yi - ps.func xi p)^2) ps.x ps.y).sum

open Classical in
/-- One inner-loop iteration over parameter index `pidx` in sweep `i`:
propose, compute the Metropolis ratio, accept or reject.  The state is
`(p, accepts)`. -/
noncomputable def mcmc_param_step (ps : MCMCParams) (sig2 : ℝ) (i pidx : ℕ)
    (st : List ℝ × List ℕ) : List ℝ × List ℕ :=
  let p := st.1
  let accepts := st.2
  let pnew := p.set pidx (p.getD pidx 0 + ps.xi i pidx * ps.up.getD pidx 0)
  let problog := -1/(2*sig2) * mcmc_sumsq ps p
  let problognew := -1/(2*sig2) * mcmc_sumsq ps pnew
  let r := Real.exp (problognew - problog) *
      ps.priors pidx (pnew.getD pidx 0) / ps.priors pidx (p.getD pidx 0)
  if ps.unif i pidx ≤ r then (pnew, accepts.set pidx (accepts.getD pidx 0 + 1))
  else (p, accepts)

/-- The loop state: current parameter vector, per-parameter acceptance
counts, current sigma-squared, and the recorded rows/trace. -/
structure MCMCTraceState where
  p : List ℝ
  accepts : List ℕ
  sig2 : ℝ
  rows : List (List ℝ)
  sig2trace : List ℝ

open Classical in
/-- One sweep `i`: the inner loop over all parameter indices, then the
optional sigma-squared update, then recording the row and the trace value. -/
noncomputable def mcmc_sweep (ps : MCMCParams) (i : ℕ) (st : MCMCTraceState) : MCMCTraceState :=
  let inner := (List.range st.p.length).foldl
      (fun s pidx => mcmc_param_step ps st.sig2 i pidx s) (st.p, st.accepts)
  let p := inner.1
  let accepts := inner.2
  let sig2 :=
    if ps.varysigma then
      let sig2new := st.sig2 + ps.xisig i * ps.sig2sig
      if sig2new < ps.sig2lim.2 ∧ ps.sig2lim.1 < sig2new then
        let ss2 := mcmc_sumsq ps p
        let problog := -1/(2*st.sig2) * ss2
        let problognew := -1/(2*sig2new) * ss2
        if ps.unifsig i ≤ Real.exp (problognew - problog) then sig2new else st.sig2
      else st.sig2
    else st.sig2
  { p := p, accepts := accepts, sig2 := sig2,
    rows := st.rows ++ [p], sig2trace := st.sig2trace ++ [sig2] }

/-- The full chain: `samples` sweeps from the initial state. -/
noncomputable def calc_MCMC_run (ps : MCMCParams) (samples : ℕ) : MCMCTraceState :=
  (List.range samples).foldl (fun st i => mcmc_sweep ps i st)
    { p := ps.p0, accepts := List.replicate ps.p0.length 0, sig2 := ps.sig2init,
      rows := [], sig2trace := [] }

/-- Column-wise mean of the retained coefficient matrix (column count fixed
by the `np.zeros((samples, self.numparams))` allocation). -/
noncomputable def colMeansR (nump : ℕ) (rows : List (List ℝ)) : List ℝ :=
  (List.range nump).map (fun j => ((rows.map (fun r => r.getD j 0)).sum) / rows.length)

/-- The `calc_MCMC` output-record fields consulted by claims C8 and C9. -/
structure MCMCOutputRec where
  acceptance : List ℝ
  mcmccoeffs : List (List ℝ)
  coeffs : List ℝ
  degf : ℤ

/-- `calc_MCMC(samples, burnin)` after the loop: discard the first
`int(burnin*samples)` rows (`Nat.floor`, since `burnin ≥ 0`), report
`acceptance = accepts/samples`, `coeff = mcmccoeffs.mean(axis=0)` and
`degf = len(x) - len(coeff)`. -/
noncomputable def calc_MCMC_model (ps : MCMCParams) (samples : ℕ) (burnin : ℝ) :
    MCMCOutputRec :=
  let run := calc_MCMC_run ps samples
  let burnN := ⌊burnin * (samples : ℝ)⌋₊
  let mcmccoeffs := run.rows.drop burnN
  let coeff := colMeansR ps.pnames.length mcmccoeffs
  { acceptance := run.accepts.map (fun a : ℕ => (a : ℝ) / (samples : ℝ)),
    mcmccoeffs := mcmccoeffs,
    coeffs := coeff,
    degf := (ps.x.length : ℤ) - coeff.length }

/-! Invariants of the MCMC loop: each inner iteration increments the
acceptance count of its own index at most once, every index occurs at most
once per sweep, and each sweep appends exactly one row. -/

lemma param_step_accepts_getD (ps : MCMCParams) (sig2 : ℝ) (i pidx : ℕ)
    (st : List ℝ × List ℕ) (j : ℕ) :
    (mcmc_param_step ps sig2 i pidx st).2.getD j 0
      ≤ st.2.getD j 0 + if pidx = j then 1 else 0 := by
  simp only [mcmc_param_step]
  split
  · simp only [List.getD_eq_getElem?_getD, List.getElem?_set]
    rcases eq_or_ne pidx j with h | h
    · subst h
      simp only [if_pos rfl]
      split
      · split <;> simp
      · simp
    · simp [h]
  · rcases eq_or_ne pidx j with h | h <;> simp [h]

lemma foldl_param_step_accepts (ps : MCMCParams) (sig2 : ℝ) (i : ℕ) (idxs : List ℕ)
    (st : List ℝ × List ℕ) (j : ℕ) :
    ((idxs.foldl (fun s pidx => mcmc_param_step ps sig2 i pidx s) st).2.getD j 0)
      ≤ st.2.getD j 0 + idxs.count j := by
  induction idxs generalizing st with
  | nil => simp
  | cons a t ih =>
    simp only [List.foldl_cons, List.count_cons]
    have h1 := ih (mcmc_param_step ps sig2 i a st)
    have h2 := param_step_accepts_getD ps sig2 i a st j
    rcases eq_or_ne a j with h | h
    · subst h
      simp only [if_pos rfl, beq_self_eq_true, if_true] at *
      omega
    · have hba : (j == a) = false := by simp [Ne.symm h]
      simp only [h, if_false, hba] at *
      omega

lemma count_range_le_one (n j : ℕ) : (List.range n).count j ≤ 1 :=
  List.nodup_iff_count_le_one.mp (List.nodup_range n) j

lemma sweep_accepts_getD (ps : MCMCParams) (i : ℕ) (st : MCMCTraceState) (j : ℕ) :
    (mcmc_sweep ps i st).accepts.getD j 0 ≤ st.accepts.getD j 0 + 1 := by
  simp only [mcmc_sweep]
  have h1 := foldl_param_step_accepts ps st.sig2 i (List.range st.p.length) (st.p, st.accepts) j
  have h2 := count_range_le_one st.p.length j
  simp only [] at h1
  omega

lemma sweep_rows_length (ps : MCMCParams) (i : ℕ) (st : MCMCTraceState) :
    (mcmc_sweep ps i st).rows.length = st.rows.length + 1 := by
  simp [mcmc_sweep]

lemma run_fold_accepts (ps : MCMCParams) (is : List ℕ) (st : MCMCTraceState) (j : ℕ) :
    ((is.foldl (fun s i => mcmc_sweep ps i s) st).accepts.getD j 0)
      ≤ st.accepts.getD j 0 + is.length := by
  induction is generalizing st with
  | nil => simp
  | cons a t ih =>
    simp only [List.foldl_cons, List.length_cons]
    have h1 := ih (mcmc_sweep ps a st)
    have h2 := sweep_accepts_getD ps a st j
    omega

lemma run_fold_rows (ps : MCMCParams) (is : List ℕ) (st : MCMCTraceState) :
    ((is.foldl (fun s i => mcmc_sweep ps i s) st).rows.length)
      = st.rows.length + is.length := by
  induction is generalizing st with
  | nil => simp
  | cons a t ih =>
    simp only [List.foldl_cons, List.length_cons]
    rw [ih (mcmc_sweep ps a st), sweep_rows_length]
    omega

lemma run_accepts_le (ps : MCMCParams) (samples : ℕ) (j : ℕ) :
    (calc_MCMC_run ps samples).accepts.getD j 0 ≤ samples := by
  have h := run_fold_accepts ps (List.range samples)
    { p := ps.p0, accepts := List.replicate ps.p0.length 0, sig2 := ps.sig2init,
      rows := [], sig2trace := [] } j
  have h0 : (List.replicate ps.p0.length (0:ℕ)).getD j 0 = 0 := by
    simp [List.getD_eq_getElem?_getD, List.getElem?_replicate]
    split <;> rfl
  rw [calc_MCMC_run]
  simp only [h0, List.length_range] at h
  omega

lemma run_rows_length (ps : MCMCParams) (samples : ℕ) :
    (calc_MCMC_run ps samples).rows.length = samples := by
  have h := run_fold_rows ps (List.range samples)
    { p := ps.p0, accepts := List.replicate ps.p0.length 0, sig2 := ps.sig2init,
      rows := [], sig2trace := [] }
  rw [calc_MCMC_run]
  simpa using h

end UncertaintyCalc

namespace UncertaintyCalc

/-! ## Claim theorems for the risk module -/

/-- C1: the claim states that `test_risk()` accepts exactly when the test
median lies in `[LL+GBL, UL-GBU]` and reports the accept-branch risk there.
The code instead compares the median against `UL - guardband[0]`, i.e. it
applies the LOWER guard-band offset on the upper limit, contradicting the
class's own documented convention (`set_guardband`: acceptance limit
`A = UL - GBU`).  At the concrete input below (limits `(-1, 1)`, guard band
`(GBL, GBU) = (1/2, 0)`, test median `1 = UL - GBU`) the claim's acceptance
condition holds, yet the code rejects and returns the reject-branch risk
`1/3` instead of the accept-branch risk `2/3`. -/
theorem C1_test_risk_lower_offset_on_both_sides :
    let r0 : Risk := { speclimits := (-1, 1), guardband := (1/2, 0),
                       testdist := { median := 1, cdf := fun x => (x + 2) / 6 } }
    (r0.testdist.median = r0.speclimits.2 - r0.guardband.2
      ∧ r0.speclimits.1 + r0.guardband.1 ≤ r0.testdist.median
      ∧ r0.testdist.median ≤ r0.speclimits.2 - r0.guardband.2)
    ∧ r0.test_risk = (1/3, false)
    ∧ r0.testdist.cdf r0.speclimits.1 + (1 - r0.testdist.cdf r0.speclimits.2) = 2/3 := by
  refine ⟨⟨by norm_num, by norm_num, by norm_num⟩, ?_, by norm_num⟩
  simp only [Risk.test_risk]
  norm_num

/-- C2: the claim states that a sample pair is counted toward PFR exactly
when the process sample lies inside both specification limits and the test
sample is on the reject side of a guard-banded limit.  The code's condition
`((proc < UL) & (test > UL-GBU)) | ((proc > LL) & (test < LL+GBL))` does not
require the process sample to be inside the limits: with `LL = 0`, `UL = 1`,
no guard band, the pair `(proc, test) = (-1, 2)` has its process sample below
`LL` (a nonconforming unit), yet it is counted toward PFR (indeed toward both
PFA and PFR at once), so `PFAR_MC` returns `PFR = 1` where the claim requires
`PFR = 0`. -/
theorem C2_PFAR_MC_FR_counts_nonconforming :
    PFAR_MC [-1] [2] 0 1 0 0 1 = (1, 1)
    ∧ PFAR_MC_FRcond 0 1 0 0 (-1) 2 = true
    ∧ spec_FRcond 0 1 0 0 (-1) 2 = false := by
  refine ⟨?_, ?_, ?_⟩
  · simp only [PFAR_MC, PFAR_MC_FAcond, PFAR_MC_FRcond, List.zip, List.zipWith, List.filter]
    norm_num
  · simp only [PFAR_MC_FRcond]; norm_num
  · simp only [spec_FRcond]; norm_num

/-- C4 counterexample: the claim says both loaders return `None` rather than
raising whenever the content does not parse as valid structured data.  The
code catches only `yaml.scanner.ScannerError`; the document `"["` fails to
parse (PyYAML raises `yaml.parser.ParserError`, a different subclass), and
that exception propagates out of both loaders instead of `None` being
returned. -/
theorem C4_parser_error_propagates :
    pyyaml_model "[" = Except.error YamlErr.parserError
    ∧ Risk.from_configfile (Except.ok "[") pyyaml_model (fun _ => Except.ok ())
        = Except.error (LoadErr.yaml YamlErr.parserError)
    ∧ CurveFit.from_configfile (Except.ok "[") pyyaml_model (fun _ => Except.ok ())
        = Except.error (LoadErr.yaml YamlErr.parserError) := by
  refine ⟨rfl, rfl, rfl⟩

/-- C4 amended: both loaders return `None` rather than raising when the
content is not decodable as text, or when YAML tokenization fails (a
`yaml.scanner.ScannerError`); parse failures of any other kind propagate as
exceptions. -/
theorem C4_loaders_return_none {Cfg β : Type} (read : Except Unit String)
    (safe_load : String → Except YamlErr Cfg) (fromDoc : Cfg → Except Unit β) :
    (read = Except.error () →
      Risk.from_configfile read safe_load fromDoc = Except.ok none
      ∧ CurveFit.from_configfile read safe_load fromDoc = Except.ok none)
    ∧ (∀ yml, read = Except.ok yml → safe_load yml = Except.error YamlErr.scannerError →
      Risk.from_configfile read safe_load fromDoc = Except.ok none
      ∧ CurveFit.from_configfile read safe_load fromDoc = Except.ok none) := by
  constructor
  · intro h
    subst h
    exact ⟨rfl, rfl⟩
  · intro yml h hscan
    subst h
    constructor
    · simp only [Risk.from_configfile, hscan]
    · simp only [CurveFit.from_configfile, hscan]

/-- C4 witness: a binary (undecodable) input and a scanner-failing input each
make both loaders return `None`. -/
theorem C4_loaders_return_none_witness :
    (Risk.from_configfile (Except.error ())
        (fun _ : String => (Except.error YamlErr.scannerError : Except YamlErr Unit))
        (fun _ => Except.ok ()) = Except.ok none
      ∧ CurveFit.from_configfile (Except.error ())
        (fun _ : String => (Except.error YamlErr.scannerError : Except YamlErr Unit))
        (fun _ => Except.ok ()) = Except.ok none)
    ∧ (Risk.from_configfile (Except.ok "x")
        (fun _ : String => (Except.error YamlErr.scannerError : Except YamlErr Unit))
        (fun _ => Except.ok ()) = Except.ok none
      ∧ CurveFit.from_configfile (Except.ok "x")
        (fun _ : String => (Except.error YamlErr.scannerError : Except YamlErr Unit))
        (fun _ => Except.ok ()) = Except.ok none) :=
  ⟨(C4_loaders_return_none (Except.error ())
      (fun _ => Except.error YamlErr.scannerError) (fun _ => Except.ok ())).1 rfl,
   (C4_loaders_return_none (Except.ok "x")
      (fun _ => Except.error YamlErr.scannerError) (fun _ => Except.ok ())).2 "x" rfl rfl⟩

/-- C6: for spec limits with `LL < UL`, `set_gbf(g)` installs the symmetric
guard-band offsets `GBL = GBU = ((UL-LL)/2) * (1-g)`, and `get_gbf()` applied
to the result returns exactly `g`. -/
theorem C6_set_gbf_get_gbf_inverse (r : Risk) (g : ℚ)
    (h : r.speclimits.1 < r.speclimits.2) :
    (r.set_gbf g).guardband =
      (((r.speclimits.2 - r.speclimits.1) / 2) * (1 - g),
       ((r.speclimits.2 - r.speclimits.1) / 2) * (1 - g))
    ∧ (r.set_gbf g).get_gbf = g := by
  constructor
  · rfl
  · have hrng : r.speclimits.2 - r.speclimits.1 ≠ 0 := by
      intro hc; linarith [sub_eq_zero.mp hc]
    simp only [Risk.set_gbf, Risk.get_gbf]
    field_simp

/-- C6 witness: instantiation at spec limits `(-1, 1)` and factor `1/3`. -/
theorem C6_set_gbf_get_gbf_inverse_witness :
    (Risk.set_gbf ⟨(-1, 1), (0, 0), ⟨0, fun _ => 0⟩⟩ (1/3)).guardband =
      ((((-1, 1) : ℚ × ℚ).2 - ((-1, 1) : ℚ × ℚ).1) / 2 * (1 - 1/3),
       (((-1, 1) : ℚ × ℚ).2 - ((-1, 1) : ℚ × ℚ).1) / 2 * (1 - 1/3))
    ∧ (Risk.set_gbf ⟨(-1, 1), (0, 0), ⟨0, fun _ => 0⟩⟩ (1/3)).get_gbf = 1/3 :=
  C6_set_gbf_get_gbf_inverse ⟨(-1, 1), (0, 0), ⟨0, fun _ => 0⟩⟩ (1/3) (by norm_num)

/-- The residual-derived variance factor `syx^2 = resid/(len(x)-2)` of a fit
with slope `b` and intercept `a` (the square of `syx` in `linefit`). -/
def linefit_syx2 (x y : List ℚ) (b a : ℚ) : ℚ :=
  (List.zipWith (fun xi yi => (yi - a - b * xi)^2) x y).sum / ((x.length : ℚ) - 2)

/-- C5: with a uniform positive uncertainty `c` on every point, `linefit`
returns the same slope and intercept as with all-zero uncertainty; the
covariance entries are the only difference: the all-zero entries carry the
residual-derived factor `syx^2` where the uniform-`c` entries carry `c^2`
(so `zero-entry * c^2 = uniform-entry * syx^2` for all three). -/
theorem C5_linefit_uniform_vs_zero_sig (x y : List ℚ) (n : ℕ) (c : ℚ)
    (hx : x.length = n) (hy : y.length = n) (hn : 3 ≤ n) (hc : 0 < c) :
    (linefit x y (List.replicate n c) true).b = (linefit x y (List.replicate n 0) true).b
    ∧ (linefit x y (List.replicate n c) true).a = (linefit x y (List.replicate n 0) true).a
    ∧ (linefit x y (List.replicate n 0) true).sigb2 * c^2
        = (linefit x y (List.replicate n c) true).sigb2
          * linefit_syx2 x y (linefit x y (List.replicate n 0) true).b
              (linefit x y (List.replicate n 0) true).a
    ∧ (linefit x y (List.replicate n 0) true).siga2 * c^2
        = (linefit x y (List.replicate n c) true).siga2
          * linefit_syx2 x y (linefit x y (List.replicate n 0) true).b
              (linefit x y (List.replicate n 0) true).a
    ∧ (linefit x y (List.replicate n 0) true).cov * c^2
        = (linefit x y (List.replicate n c) true).cov
          * linefit_syx2 x y (linefit x y (List.replicate n 0) true).b
              (linefit x y (List.replicate n 0) true).a := by
  subst hx
  have hcne : c ≠ 0 := ne_of_gt hc
  have hc2 : c^2 ≠ 0 := pow_ne_zero 2 hcne
  have hA : allNonzero (List.replicate x.length c) = true := by
    simp [allNonzero, List.all_eq_true, List.mem_replicate, hcne]
  have hZ : allNonzero (List.replicate x.length 0) = false := by
    rw [Bool.eq_false_iff]
    intro hall
    rw [allNonzero, List.all_eq_true] at hall
    have h2 := hall 0 (List.mem_replicate.mpr ⟨by omega, rfl⟩)
    simp at h2
  simp only [linefit, linefit_syx2, hA, hZ]
  simp only [Bool.false_eq_true, Bool.true_eq_false, not_false_iff, not_true,
    if_true, if_false, ite_true, ite_false, eq_self_iff_true]
  rw [weighted_core_uniform x y c hcne hy]
  simp only []
  set u := linefit_unweighted_core x y with hu
  set S := (List.zipWith (fun xi yi => (yi - (u.sy - u.sx * u.b) / u.ss - u.b * xi)^2) x y).sum
      / ((x.length : ℚ) - 2) with hS
  clear_value u S
  refine ⟨trivial, ?_, ?_, ?_, ?_⟩
  · rw [div_mul_eq_mul_div, div_sub_div_same, div_div_same_cancel _ _ _ hc2]
  · rw [show (1:ℚ)/(u.st2/c^2) = c^2/u.st2 from by rw [one_div, inv_div]]
    ring
  · rw [div_mul_div_comm, div_mul_div_comm, div_div_same_cancel _ _ _ (mul_ne_zero hc2 hc2),
      div_div_eq_mul_div]
    ring
  · rw [show (1:ℚ)/(u.st2/c^2) = c^2/u.st2 from by rw [one_div, inv_div]]
    ring

/-- C5 witness: three points, uniform uncertainty `1` versus all-zero. -/
theorem C5_linefit_uniform_vs_zero_sig_witness :
    (linefit [0, 1, 2] [1, 3, 5] (List.replicate 3 1) true).b
        = (linefit [0, 1, 2] [1, 3, 5] (List.replicate 3 0) true).b
    ∧ (linefit [0, 1, 2] [1, 3, 5] (List.replicate 3 1) true).a
        = (linefit [0, 1, 2] [1, 3, 5] (List.replicate 3 0) true).a
    ∧ (linefit [0, 1, 2] [1, 3, 5] (List.replicate 3 0) true).sigb2 * 1^2
        = (linefit [0, 1, 2] [1, 3, 5] (List.replicate 3 1) true).sigb2
          * linefit_syx2 [0, 1, 2] [1, 3, 5]
              (linefit [0, 1, 2] [1, 3, 5] (List.replicate 3 0) true).b
              (linefit [0, 1, 2] [1, 3, 5] (List.replicate 3 0) true).a
    ∧ (linefit [0, 1, 2] [1, 3, 5] (List.replicate 3 0) true).siga2 * 1^2
        = (linefit [0, 1, 2] [1, 3, 5] (List.replicate 3 1) true).siga2
          * linefit_syx2 [0, 1, 2] [1, 3, 5]
              (linefit [0, 1, 2] [1, 3, 5] (List.replicate 3 0) true).b
              (linefit [0, 1, 2] [1, 3, 5] (List.replicate 3 0) true).a
    ∧ (linefit [0, 1, 2] [1, 3, 5] (List.replicate 3 0) true).cov * 1^2
        = (linefit [0, 1, 2] [1, 3, 5] (List.replicate 3 1) true).cov
          * linefit_syx2 [0, 1, 2] [1, 3, 5]
              (linefit [0, 1, 2] [1, 3, 5] (List.replicate 3 0) true).b
              (linefit [0, 1, 2] [1, 3, 5] (List.replicate 3 0) true).a :=
  C5_linefit_uniform_vs_zero_sig [0, 1, 2] [1, 3, 5] 3 1 rfl rfl (le_refl 3) one_pos

/-- C10: if any element of `sig` is zero, `linefit` takes the fully
unweighted path, producing exactly the same result as with `sig` all zero
(every remaining nonzero uncertainty is ignored, and the covariance is
rescaled by the residual-based factor, as in the all-zero case); the
weighted branch — the only code dividing by `sig` — is entered only when
every element of `sig` is nonzero, so no division by a zero element of
`sig` ever occurs. -/
theorem C10_linefit_zero_element_unweighted (x y sig : List ℚ) (s : ℚ)
    (hs : s ∈ sig) (h0 : s = 0) (absolute_sigma : Bool) :
    linefit x y sig absolute_sigma = linefit x y (List.replicate sig.length 0) absolute_sigma
    ∧ allNonzero sig = false := by
  have hsig : allNonzero sig = false := by
    rw [Bool.eq_false_iff]
    intro hall
    rw [allNonzero, List.all_eq_true] at hall
    have h2 := hall s hs
    rw [h0] at h2
    simp at h2
  have hlen : sig.length ≠ 0 := by
    cases sig with
    | nil => cases hs
    | cons a l => simp
  have hrep : allNonzero (List.replicate sig.length 0) = false := by
    rw [Bool.eq_false_iff]
    intro hall
    rw [allNonzero, List.all_eq_true] at hall
    have h2 := hall 0 (List.mem_replicate.mpr ⟨hlen, rfl⟩)
    simp at h2
  refine ⟨?_, hsig⟩
  simp only [linefit, hsig, hrep, Bool.false_eq_true, if_false, ite_false,
    not_false_iff, if_true, ite_true]

/-- C10 witness: `sig = [1, 0, 2]` has one zero among nonzero uncertainties. -/
theorem C10_linefit_zero_element_unweighted_witness :
    linefit [0, 1, 2] [1, 3, 5] [1, 0, 2] true
      = linefit [0, 1, 2] [1, 3, 5] (List.replicate ([1, 0, 2] : List ℚ).length 0) true
    ∧ allNonzero [1, 0, 2] = false :=
  C10_linefit_zero_element_unweighted [0, 1, 2] [1, 3, 5] [1, 0, 2] 0 (by simp) rfl true

/-- C7: `guardband_norm` computes `sqrt(1 - 1/TUR^2)` for method `rss`,
`1 - 1/TUR` for method `test` when `TUR ≤ 4` and `1` otherwise, and
`1.25 - 1/TUR` for method `rp10` when `TUR ≤ 4` and `1` otherwise; in
particular it gives `0.75` for `('test', 4)`, `1` for `('rp10', 4)` and
`sqrt 3 / 2` for `('rss', 2)`. -/
theorem C7_guardband_norm_branches (TUR : ℝ) :
    guardband_norm .rss TUR = Real.sqrt (1 - 1/TUR^2)
    ∧ (TUR ≤ 4 → guardband_norm .test TUR = 1 - 1/TUR)
    ∧ (4 < TUR → guardband_norm .test TUR = 1)
    ∧ (TUR ≤ 4 → guardband_norm .rp10 TUR = 1.25 - 1/TUR)
    ∧ (4 < TUR → guardband_norm .rp10 TUR = 1)
    ∧ guardband_norm .test 4 = 0.75
    ∧ guardband_norm .rp10 4 = 1
    ∧ guardband_norm .rss 2 = Real.sqrt 3 / 2 := by
  refine ⟨rfl, ?_, ?_, ?_, ?_, ?_, ?_, ?_⟩
  · intro h; simp [guardband_norm, h]
  · intro h; simp [guardband_norm, not_le.mpr h]
  · intro h; simp [guardband_norm, h]
  · intro h; simp [guardband_norm, not_le.mpr h]
  · norm_num [guardband_norm]
  · norm_num [guardband_norm]
  · show Real.sqrt (1 - 1/(2:ℝ)^2) = Real.sqrt 3 / 2
    rw [show (1 - 1/(2:ℝ)^2) = 3/4 by norm_num]
    rw [show (3/4 : ℝ) = 3 / 4 from rfl, Real.sqrt_div (by norm_num : (0:ℝ) ≤ 3) 4]
    rw [show (4:ℝ) = 2^2 by norm_num, Real.sqrt_sq (by norm_num : (0:ℝ) ≤ 2)]

/-- C7 witness: the two guarded branches applied at `TUR = 4`. -/
theorem C7_guardband_norm_branches_witness :
    guardband_norm .test 4 = 1 - 1/4 ∧ guardband_norm .rp10 4 = 1.25 - 1/4 :=
  ⟨(C7_guardband_norm_branches 4).2.1 (le_refl 4),
   (C7_guardband_norm_branches 4).2.2.2.1 (le_refl 4)⟩

/-- C3: the claim states that in `'pred'` mode with nothing cached, `stdunc`
computes the LSQ fit lazily and returns that record's prediction-band value
at `pidx`.  The cached branches indeed call `u_pred` (second conjunct), but
the lazy fallback calls `u_predy` — an accessor that does not exist on the
record (every other use in the file, and the record interface the spec
describes, is `u_pred`), so the fallback raises `AttributeError` instead of
returning `u_pred(pidx)` (first conjunct).  The spec itself flags this line
as a latent defect of the fallback-only path. -/
theorem C3_stdunc_pred_lazy_calls_u_predy (rec : FitOutputRecord) (pidx : ℚ) :
    CurveFitParam.stdunc_pred ⟨none, none, none⟩ rec pidx
        = Except.error PyCallErr.attributeError
    ∧ (∀ (r : FitOutputRecord) (mc gum : Option FitOutputRecord),
        CurveFitParam.stdunc_pred ⟨some r, mc, gum⟩ rec pidx = Except.ok (r.u_pred pidx)) :=
  ⟨rfl, fun _ _ _ => rfl⟩

/-- C8: for each of the four calculation methods, the produced record's
degrees of freedom equals the number of data points minus the number of fit
coefficients, and the coefficient count equals the length of the
parameter-name list.  For `calc_LSQ` and `calc_GUM` the coefficient count
comes from the numeric fitter's contract (one coefficient per parameter, the
two hypotheses); for `calc_MC` and `calc_MCMC` it is forced by the
`np.zeros((samples, self.numparams))` allocation. -/
theorem C8_degf_and_coeff_count (st : CurveFitState) (fitfunc : List ℚ → List ℚ → List ℚ)
    (gum_coeff : List ℚ) (samples : ℕ) (fitsample : ℕ → List ℚ)
    (ps : MCMCParams) (burnin : ℝ)
    (hL : (fitfunc st.x st.y).length = st.pnames.length)
    (hG : gum_coeff.length = st.pnames.length) :
    ((CurveFit.calc_LSQ st fitfunc).degf = (st.x.length : ℤ) - st.pnames.length
      ∧ (CurveFit.calc_LSQ st fitfunc).coeffs.length = st.pnames.length)
    ∧ ((CurveFit.calc_MC st samples fitsample).degf = (st.x.length : ℤ) - st.pnames.length
      ∧ (CurveFit.calc_MC st samples fitsample).coeffs.length = st.pnames.length)
    ∧ ((CurveFit.calc_GUM st gum_coeff).degf = (st.x.length : ℤ) - st.pnames.length
      ∧ (CurveFit.calc_GUM st gum_coeff).coeffs.length = st.pnames.length)
    ∧ ((calc_MCMC_model ps samples burnin).degf = (ps.x.length : ℤ) - ps.pnames.length
      ∧ (calc_MCMC_model ps samples burnin).coeffs.length = ps.pnames.length) := by
  have hmc : (CurveFit.calc_MC st samples fitsample).coeffs.length = st.pnames.length := by
    simp [CurveFit.calc_MC, colMeans, CurveFit.numparams]
  have hmcmc : (calc_MCMC_model ps samples burnin).coeffs.length = ps.pnames.length := by
    simp [calc_MCMC_model, colMeansR]
  refine ⟨⟨?_, ?_⟩, ⟨?_, hmc⟩, ⟨?_, ?_⟩, ⟨?_, hmcmc⟩⟩
  · simp [CurveFit.calc_LSQ, hL]
  · simp [CurveFit.calc_LSQ, hL]
  · simp [CurveFit.calc_MC, colMeans, CurveFit.numparams]
  · simp [CurveFit.calc_GUM, hG]
  · simp [CurveFit.calc_GUM, hG]
  · simp [calc_MCMC_model, colMeansR]

/-- A concrete parameter set for the MCMC witnesses. -/
noncomputable def mcmc_witness_params : MCMCParams :=
  { x := [0, 1, 2], y := [0, 1, 2], func := fun _ _ => 0, pnames := ["a", "b"],
    p0 := [0, 0], up := [1, 1], priors := fun _ _ => 1, sig2init := 1,
    varysigma := false, sig2sig := 0, sig2lim := (0, 1),
    xi := fun _ _ => 0, unif := fun _ _ => 0, xisig := fun _ => 0, unifsig := fun _ => 0 }

/-- C8 witness: two-parameter line fit over three points, with constant
fitters returning two coefficients. -/
theorem C8_degf_and_coeff_count_witness :
    ((CurveFit.calc_LSQ ⟨["a", "b"], [0, 1, 2], [1, 3, 5]⟩ (fun _ _ => [0, 0])).degf
        = ((([0, 1, 2] : List ℚ)).length : ℤ) - (["a", "b"] : List String).length
      ∧ (CurveFit.calc_LSQ ⟨["a", "b"], [0, 1, 2], [1, 3, 5]⟩ (fun _ _ => [0, 0])).coeffs.length
        = (["a", "b"] : List String).length)
    ∧ ((CurveFit.calc_MC ⟨["a", "b"], [0, 1, 2], [1, 3, 5]⟩ 2 (fun _ => [0, 0])).degf
        = ((([0, 1, 2] : List ℚ)).length : ℤ) - (["a", "b"] : List String).length
      ∧ (CurveFit.calc_MC ⟨["a", "b"], [0, 1, 2], [1, 3, 5]⟩ 2 (fun _ => [0, 0])).coeffs.length
        = (["a", "b"] : List String).length)
    ∧ ((CurveFit.calc_GUM ⟨["a", "b"], [0, 1, 2], [1, 3, 5]⟩ [0, 0]).degf
        = ((([0, 1, 2] : List ℚ)).length : ℤ) - (["a", "b"] : List String).length
      ∧ (CurveFit.calc_GUM ⟨["a", "b"], [0, 1, 2], [1, 3, 5]⟩ [0, 0]).coeffs.length
        = (["a", "b"] : List String).length)
    ∧ ((calc_MCMC_model mcmc_witness_params 2 0).degf
        = (mcmc_witness_params.x.length : ℤ) - mcmc_witness_params.pnames.length
      ∧ (calc_MCMC_model mcmc_witness_params 2 0).coeffs.length
        = mcmc_witness_params.pnames.length) :=
  C8_degf_and_coeff_count ⟨["a", "b"], [0, 1, 2], [1, 3, 5]⟩ (fun _ _ => [0, 0])
    [0, 0] 2 (fun _ => [0, 0]) mcmc_witness_params 0 rfl rfl

/-- C9: after `calc_MCMC(samples, burnin)` with `samples > 0` and
`0 ≤ burnin ≤ 1`, every per-parameter acceptance fraction lies in `[0, 1]`
(each parameter is accepted at most once per sweep over `samples` sweeps),
and the retained coefficient matrix has exactly
`samples - floor(burnin * samples)` rows (the floor never exceeds
`samples`). -/
theorem C9_mcmc_acceptance_and_burnin (ps : MCMCParams) (samples : ℕ) (burnin : ℝ)
    (hN : 0 < samples) (hb0 : 0 ≤ burnin) (hb1 : burnin ≤ 1) :
    (∀ a ∈ (calc_MCMC_model ps samples burnin).acceptance, 0 ≤ a ∧ a ≤ 1)
    ∧ (calc_MCMC_model ps samples burnin).mcmccoeffs.length
        = samples - ⌊burnin * (samples : ℝ)⌋₊
    ∧ ⌊burnin * (samples : ℝ)⌋₊ ≤ samples := by
  have hburn : ⌊burnin * (samples : ℝ)⌋₊ ≤ samples := by
    have h1 : burnin * (samples : ℝ) ≤ (samples : ℝ) :=
      mul_le_of_le_one_left (Nat.cast_nonneg samples) hb1
    calc ⌊burnin * (samples : ℝ)⌋₊ ≤ ⌊((samples : ℕ) : ℝ)⌋₊ := Nat.floor_le_floor h1
      _ = samples := Nat.floor_natCast samples
  refine ⟨?_, ?_, hburn⟩
  · intro a ha
    simp only [calc_MCMC_model] at ha
    obtain ⟨k, hk, rfl⟩ := List.mem_map.mp ha
    obtain ⟨idx, hidx, hkeq⟩ := List.mem_iff_getElem.mp hk
    have hle : k ≤ samples := by
      have h := run_accepts_le ps samples idx
      rw [List.getD_eq_getElem?_getD, List.getElem?_eq_getElem hidx] at h
      simp only [Option.getD_some] at h
      omega
    constructor
    · exact div_nonneg (Nat.cast_nonneg k) (Nat.cast_nonneg samples)
    · rw [div_le_one (by exact_mod_cast hN)]
      exact_mod_cast hle
  · simp only [calc_MCMC_model, List.length_drop, run_rows_length]

/-- C9 witness: two sweeps with zero burn-in fraction. -/
theorem C9_mcmc_acceptance_and_burnin_witness :
    (∀ a ∈ (calc_MCMC_model mcmc_witness_params 2 0).acceptance, 0 ≤ a ∧ a ≤ 1)
    ∧ (calc_MCMC_model mcmc_witness_params 2 0).mcmccoeffs.length
        = 2 - ⌊(0 : ℝ) * ((2 : ℕ) : ℝ)⌋₊
    ∧ ⌊(0 : ℝ) * ((2 : ℕ) : ℝ)⌋₊ ≤ 2 :=
  C9_mcmc_acceptance_and_burnin mcmc_witness_params 2 0 (Nat.succ_pos 1)
    (le_refl 0) zero_le_one

end UncertaintyCalc
